import Mathlib

/-!
Shallow embedding of the face-clustering pipeline of this repository,
chiefly `python/analyze_video_clean.py` (the "clean" variant) and
`python/analyze_video_final.py` (the "final" variant).

Modelling conventions:

* Python floats are modelled as `ℚ`.
* Outputs of external OpenCV/NumPy primitives (`cv2.Laplacian(...).var()`,
  `np.std`, `np.mean`, `cv2.matchTemplate`, ...) are not code of this
  repository; they are modelled as inputs (the `PatchStats` record) or as
  function parameters (`sim`, `qual`, `complete`, `corr`), constrained only
  by their mathematically guaranteed invariants (a variance is nonnegative,
  a mean of bytes lies in `[0, 255]`, ...).
* Timestamps are produced by `str(timedelta(seconds=int(x)))`, which encodes
  the whole-second value injectively; timestamp strings are therefore
  modelled by their underlying time values (a type `T`, ordered when a claim
  speaks about time order).
* `list(set(xs))` in CPython iterates a hash table whose order for strings is
  hash-randomized (`PYTHONHASHSEED`); it is modelled as a parameter
  `pyset : List T → List T` whose guaranteed property is only that the
  result is duplicate-free (and has the same members as the input).
* The disk round-trip of representative crops
  (`cv2.imwrite` / `cv2.imread` in `analyze_video_clean.py`) is modelled as
  the identity: the stored `image` field of a cluster is the observation
  that was saved for it.
-/

/-! ### Quality scorer (`calculate_face_quality`, analyze_video_clean.py lines 79-135) -/

/-- Weight of the sharpness sub-score (`sharpness_score * 0.25`, line 124). -/
def sharpnessWeight : ℚ := 25/100

/-- Weight of the contrast sub-score (`contrast_score * 0.20`, line 125). -/
def contrastWeight : ℚ := 20/100

/-- Weight of the brightness sub-score (`brightness_score * 0.15`, line 126). -/
def brightnessWeight : ℚ := 15/100

/-- Weight of the size sub-score (`size_score * 0.15`, line 127). -/
def sizeWeight : ℚ := 15/100

/-- Weight of the aspect-ratio sub-score (`aspect_score * 0.10`, line 128). -/
def aspectWeight : ℚ := 10/100

/-- Weight of the completeness sub-score (`completeness_score * 0.10`, line 129). -/
def completenessWeight : ℚ := 10/100

/-- Weight of the edge-density sub-score (`edge_score * 0.05`, line 130). -/
def edgeWeight : ℚ := 5/100

/-- The seven weights of `calculate_face_quality`, in source order. -/
def qualityWeights : List ℚ :=
  [sharpnessWeight, contrastWeight, brightnessWeight, sizeWeight,
   aspectWeight, completenessWeight, edgeWeight]

/-- Statistics of one face patch as returned by the external OpenCV/NumPy
calls inside `calculate_face_quality`.  Each field is the value of the
named Python expression. -/
structure PatchStats where
  /-- second component of `face_img.shape[:2]` -/
  width : ℚ
  /-- first component of `face_img.shape[:2]` -/
  height : ℚ
  /-- `cv2.Laplacian(gray, cv2.CV_64F).var()` -/
  laplacianVar : ℚ
  /-- `np.std(gray)` -/
  contrast : ℚ
  /-- `np.mean(gray)` -/
  brightness : ℚ
  /-- `is_complete_human_face(face_img)` -/
  complete : Bool
  /-- `np.sum(edges > 0) / (width * height)` -/
  edgeDensity : ℚ
deriving DecidableEq

/-- Line 89: `sharpness_score = min(laplacian_var / 100, 100)`. -/
def sharpness_score (s : PatchStats) : ℚ := min (s.laplacianVar / 100) 100

/-- Line 93: `contrast_score = min(contrast / 2, 100)`. -/
def contrast_score (s : PatchStats) : ℚ := min (s.contrast / 2) 100

/-- Line 97: `brightness_score = 100 - abs(brightness - 128) / 1.28`. -/
def brightness_score (s : PatchStats) : ℚ := 100 - |s.brightness - 128| / (128/100)

/-- Line 100: `size_score = min((width * height) / 50000, 100)`. -/
def size_score (s : PatchStats) : ℚ := min (s.width * s.height / 50000) 100

/-- Lines 103-107: `aspect_score = 100` iff `0.8 <= width/height <= 1.2`,
else `0`. -/
def aspect_score (s : PatchStats) : ℚ :=
  if 8/10 ≤ s.width / s.height ∧ s.width / s.height ≤ 12/10 then 100 else 0

/-- Lines 110-112: `completeness_score = 100` iff `is_complete_human_face`. -/
def completeness_score (s : PatchStats) : ℚ := if s.complete then 100 else 0

/-- Lines 115-120: `edge_score = 100` iff `edge_density < 0.1`, else `0`. -/
def edge_score (s : PatchStats) : ℚ := if s.edgeDensity < 1/10 then 100 else 0

/-- `calculate_face_quality` (lines 79-135): the weighted combination of the
seven sub-scores; the surrounding `try`/`except` returns `0` on any internal
exception, modelled by the `none` case. -/
def calculate_face_quality : Option PatchStats → ℚ
  | none => 0
  | some s =>
      sharpness_score s * sharpnessWeight +
      contrast_score s * contrastWeight +
      brightness_score s * brightnessWeight +
      size_score s * sizeWeight +
      aspect_score s * aspectWeight +
      completeness_score s * completenessWeight +
      edge_score s * edgeWeight

/-- Conjunction of the bounds established for `calculate_face_quality`:
every sub-score lies in `[0, 100]`, the seven weights sum to `1`, an
internal exception yields `0`, and the total lies in `[0, 100]`. -/
def QualityBoundsSpec (s : PatchStats) : Prop :=
  (0 ≤ sharpness_score s ∧ sharpness_score s ≤ 100) ∧
  (0 ≤ contrast_score s ∧ contrast_score s ≤ 100) ∧
  (0 ≤ brightness_score s ∧ brightness_score s ≤ 100) ∧
  (0 ≤ size_score s ∧ size_score s ≤ 100) ∧
  (0 ≤ aspect_score s ∧ aspect_score s ≤ 100) ∧
  (0 ≤ completeness_score s ∧ completeness_score s ≤ 100) ∧
  (0 ≤ edge_score s ∧ edge_score s ≤ 100) ∧
  qualityWeights.sum = 1 ∧
  calculate_face_quality none = 0 ∧
  (0 ≤ calculate_face_quality (some s) ∧ calculate_face_quality (some s) ≤ 100)

/-! ### Shared output shape (the emitted JSON object) -/

/-- One entry of the emitted `faces` array: the representative image is the
file `person_{image}.jpg`, modelled by its number. -/
structure Emitted (T : Type) where
  image : Nat
  timestamps : List T
deriving DecidableEq

/-- The emitted result object `{"total_people": ..., "faces": [...]}`. -/
structure AnalysisResult (T : Type) where
  total_people : Nat
  faces : List (Emitted T)
deriving DecidableEq

/-- In-place update of the element at one position, leaving the list
unchanged when the index is out of range (`detected_faces[i] = ...`). -/
def modifyIdx {α : Type} : List α → Nat → (α → α) → List α
  | [], _, _ => []
  | a :: l, 0, f => f a :: l
  | a :: l, n+1, f => a :: modifyIdx l n f

/-! ### Clean variant: cluster store (`analyze_video_clean.py` lines 252-391)

The observation arguments: `complete` models `is_complete_human_face`,
`qual` models `calculate_face_quality` on the patch, `sim` models
`calculate_face_similarity` — all three compute over pixel data through
OpenCV and are therefore parameters here. -/

/-- One entry of `detected_faces` (lines 348-352): `idx` is the number in
the saved filename `person_{idx}.jpg` (the creation order, 1-based),
`image` the observation whose crop was saved, `timestamps` the recorded
timestamp list, `quality` the recorded quality score. -/
structure Cluster (Obs T : Type) where
  idx : Nat
  image : Obs
  timestamps : List T
  quality : ℚ
deriving DecidableEq

/-- The scan loop over `detected_faces` (lines 311-331): threading
`best_similarity` (init `0.0`) and `best_match_index` (init `-1`), updating
them when `similarity > best_similarity`, and breaking with
`is_duplicate = True` as soon as `similarity > 0.75`.  Returns
`(is_duplicate, best_match_index)`. -/
def scanFaces {Obs T : Type} (sim : Obs → Obs → ℚ) (o : Obs) :
    List (Cluster Obs T) → Nat → ℚ → Int → Bool × Int
  | [], _, _, bmi => (false, bmi)
  | f :: rest, i, best, bmi =>
    let s := sim o f.image
    let best' := if best < s then s else best
    let bmi' := if best < s then (i : Int) else bmi
    if 3/4 < s then (true, bmi')
    else scanFaces sim o rest (i+1) best' bmi'

/-- Lines 336-337: append the timestamp to a matched cluster unless it is
already present. -/
def addTs {Obs T : Type} [DecidableEq T] (t : T) (c : Cluster Obs T) : Cluster Obs T :=
  if t ∈ c.timestamps then c else { c with timestamps := c.timestamps ++ [t] }

/-- Lines 310-354: process one accepted observation `o` with timestamp `t`
and quality `q` against the store.  On `is_duplicate` (guarded by
`best_match_index >= 0`) the timestamp is added to the matched cluster;
otherwise a new cluster is appended with `face_index = len(detected_faces)+1`. -/
def processObs {Obs T : Type} [DecidableEq T] (sim : Obs → Obs → ℚ)
    (faces : List (Cluster Obs T)) (o : Obs) (t : T) (q : ℚ) : List (Cluster Obs T) :=
  let r := scanFaces sim o faces 0 0 (-1)
  if r.1 then
    if 0 ≤ r.2 then modifyIdx faces r.2.toNat (addTs t) else faces
  else
    faces ++ [{ idx := faces.length + 1, image := o, timestamps := [t], quality := q }]

/-- Lines 290-354: the per-detection body.  A detection is dropped when
`is_complete_human_face` fails (line 295) or when
`quality_score < 15` (line 302); otherwise it is clustered. -/
def stepClean {Obs T : Type} [DecidableEq T] (complete : Obs → Bool) (qual : Obs → ℚ)
    (sim : Obs → Obs → ℚ) (faces : List (Cluster Obs T)) (ot : Obs × T) :
    List (Cluster Obs T) :=
  if complete ot.1 then
    if qual ot.1 < 15 then faces
    else processObs sim faces ot.1 ot.2 (qual ot.1)
  else faces

/-- The whole detection stream folded through the store, starting from the
empty `detected_faces` list (line 252). -/
def runClean {Obs T : Type} [DecidableEq T] (complete : Obs → Bool) (qual : Obs → ℚ)
    (sim : Obs → Obs → ℚ) (stream : List (Obs × T)) : List (Cluster Obs T) :=
  stream.foldl (stepClean complete qual sim) []

/-- The comparison used by line 367,
`detected_faces.sort(key=lambda x: x.get('quality', 0), reverse=True)`:
Python's sort is stable, and `reverse=True` keeps the original order of
equal keys, which is exactly a stable merge sort under this relation. -/
def cleanLe {Obs T : Type} (a b : Cluster Obs T) : Bool := decide (b.quality ≤ a.quality)

/-- Lines 366-391: sort by quality descending (stable), truncate to 25,
and emit `total_people` and the `faces` array. -/
def finalizeClean {Obs T : Type} (faces : List (Cluster Obs T)) : AnalysisResult T :=
  let sorted := faces.mergeSort cleanLe
  let kept := sorted.take 25
  { total_people := kept.length,
    faces := kept.map (fun f => { image := f.idx, timestamps := f.timestamps }) }

/-- Quality-descending order with ties broken by ascending creation index:
the order actually realised by the stable sort of `finalizeClean`. -/
def clusterLex {Obs T : Type} (a b : Cluster Obs T) : Prop :=
  b.quality < a.quality ∨ (a.quality = b.quality ∧ a.idx < b.idx)

/-! ### Final variant: cluster store (`analyze_video_final.py` lines 59-155) -/

/-- One entry of `unique_faces` (lines 113-117) together with its slot of the
index-aligned `face_timestamps` defaultdict: `id` is `len(unique_faces)` at
creation time (0-based creation order). -/
structure FCluster (Obs T : Type) where
  image : Obs
  id : Nat
  tss : List T
deriving DecidableEq

/-- `are_faces_similar` (lines 24-36): the correlation coefficient computed
by `cv2.matchTemplate` on the externally resized patches is the parameter
`corr`; the function returns `correlation > threshold` with the default
`threshold = 0.6`. -/
def are_faces_similar {Obs : Type} (corr : Obs → Obs → ℚ) (a b : Obs) : Bool :=
  decide (3/5 < corr a b)

/-- The `for i, existing_face in enumerate(unique_faces)` loop of lines
102-108: index of the first cluster whose stored image is similar
(the loop breaks there), if any. -/
def findMatch {Obs T : Type} (simb : Obs → Bool) :
    List (FCluster Obs T) → Nat → Option Nat
  | [], _ => none
  | f :: rest, i => if simb f.image then some i else findMatch simb rest (i+1)

/-- Lines 93-118: the per-detection body of the final variant.  `accept`
models the size gate `if w < 80 or h < 80: continue` (line 98); the loop
over `unique_faces` appends the timestamp to the first similar cluster
(`break` at line 108) and otherwise appends a new cluster with
`id = len(unique_faces)`. -/
def stepFinal {Obs T : Type} (accept : Obs → Bool) (corr : Obs → Obs → ℚ)
    (faces : List (FCluster Obs T)) (ot : Obs × T) : List (FCluster Obs T) :=
  if accept ot.1 then
    match findMatch (fun img => are_faces_similar corr ot.1 img) faces 0 with
    | some i => modifyIdx faces i (fun f => { f with tss := f.tss ++ [ot.2] })
    | none => faces ++ [{ image := ot.1, id := faces.length, tss := [ot.2] }]
  else faces

/-- The final variant's detection stream folded through its store, starting
from the empty `unique_faces` list (line 59). -/
def runFinal {Obs T : Type} (accept : Obs → Bool) (corr : Obs → Obs → ℚ)
    (stream : List (Obs × T)) : List (FCluster Obs T) :=
  stream.foldl (stepFinal accept corr) []

/-- Lines 127-155: truncate `unique_faces` to 20 (no sorting), then emit
`person_{person_id + 1}.jpg` per retained cluster in enumeration order and
`list(set(face_timestamps[person_id]))` as the timestamp list, where the
set-iteration order is the parameter `pyset`. -/
def finalizeFinal {Obs T : Type} (pyset : List T → List T)
    (faces : List (FCluster Obs T)) : AnalysisResult T :=
  let kept := faces.take 20
  { total_people := kept.length,
    faces := kept.enum.map (fun p => { image := p.1 + 1, timestamps := pyset p.2.tss }) }

/-! ### Invariants of the clean-variant store -/

/-- Creation indices in `detected_faces` are strictly increasing and bounded
by the store length (they are `1, 2, ..., n` in creation order). -/
def CleanInv {Obs T : Type} (faces : List (Cluster Obs T)) : Prop :=
  List.Pairwise (fun a b => a.idx < b.idx) faces ∧ ∀ c ∈ faces, c.idx ≤ faces.length

/-- Every stored timestamp list is strictly increasing, and all stored
timestamps are bounded by every timestamp still to come in `ts`. -/
def TsInv {Obs T : Type} [LinearOrder T] (faces : List (Cluster Obs T)) (ts : List T) : Prop :=
  ∀ c ∈ faces, List.Pairwise (· < ·) c.timestamps ∧ ∀ u ∈ c.timestamps, ∀ t ∈ ts, u ≤ t

/-! ### Concrete instantiations (used by witnesses and counterexamples)

The pixel-dependent parameters (`sim`, `qual`, `complete`, `corr`) stand for
values of the external OpenCV computations; the instantiations below fix
realisable concrete value tables for them. -/

/-- A completeness gate that accepts every patch. -/
def allComplete : Nat → Bool := fun _ => true

/-- A completeness gate that rejects every patch. -/
def noneComplete : Nat → Bool := fun _ => false

/-- A constant quality value above the acceptance threshold. -/
def qual50 : Nat → ℚ := fun _ => 50

/-- A constant quality value below the hard-coded acceptance threshold 15. -/
def qual10 : Nat → ℚ := fun _ => 10

/-- A similarity/correlation table that never reaches any threshold. -/
def simZero : Nat → Nat → ℚ := fun _ _ => 0

/-- A correlation table that always exceeds the 0.6 threshold. -/
def corrOne : Nat → Nat → ℚ := fun _ _ => 1

/-- A size gate that accepts every patch. -/
def acceptAll : Nat → Bool := fun _ => true

/-- Similarity table for the C1 counterexample: observation 2 has similarity
0.8 to the representative of the first cluster and 0.9 to the representative
of the second cluster. -/
def c1Sim : Nat → Nat → ℚ := fun a b =>
  if a = 2 ∧ b = 0 then 4/5 else if a = 2 ∧ b = 1 then 9/10 else 0

/-- Stream of three observations (patch, timestamp) for the C1 counterexample. -/
def c1Stream : List (Nat × Nat) := [(0, 0), (1, 1), (2, 2)]

/-- A concrete two-cluster store. -/
def c1wFaces : List (Cluster Nat Nat) :=
  [{ idx := 1, image := 0, timestamps := [0], quality := 50 },
   { idx := 2, image := 1, timestamps := [1], quality := 50 }]

/-- Quality table for the C2 counterexample: the second observation of the
person has the higher quality score. -/
def c2Qual : Nat → ℚ := fun n => if n = 0 then 20 else 50

/-- Similarity table for the C2 counterexample: observation 1 is a duplicate
of the cluster founded by observation 0. -/
def c2Sim : Nat → Nat → ℚ := fun a b => if a = 1 ∧ b = 0 then 9/10 else 0

/-- Stream of two observations of the same person for the C2 counterexample. -/
def c2Stream : List (Nat × Nat) := [(0, 0), (1, 1)]

/-- A concrete one-cluster store founded by observation 0 with quality 20. -/
def c2wFaces : List (Cluster Nat Nat) :=
  [{ idx := 1, image := 0, timestamps := [0], quality := 20 }]

/-- A one-observation stream, rejected by `noneComplete`. -/
def c5Stream : List (Nat × Nat) := [(0, 0)]

/-- Quality table for the C6 counterexample: the later-created cluster has
the higher-quality representative. -/
def c6Qual : Nat → ℚ := fun n => if n = 0 then 10 else 20

/-- Stream of two dissimilar observations for the C6 counterexample. -/
def c6Stream : List (Nat × Nat) := [(0, 0), (1, 1)]

/-- An admissible set-iteration order (duplicate-free, same members) that
returns the deduplicated elements in reversed order. -/
def pysetRev : List Nat → List Nat := fun l => l.dedup.reverse

/-- Stream of two observations of the same person at seconds 1 and 2,
for the C7 counterexample. -/
def c7Stream : List (Nat × Nat) := [(5, 1), (5, 2)]

/-- Stream of two dissimilar observations with non-decreasing timestamps. -/
def c7wStream : List (Nat × Nat) := [(0, 1), (1, 2)]

/-- Concrete patch statistics within the guaranteed invariants. -/
def c9Stats : PatchStats :=
  { width := 150, height := 150, laplacianVar := 5000, contrast := 60,
    brightness := 128, complete := true, edgeDensity := 5/100 }

/-! ### Similarity engine (`calculate_face_similarity`, analyze_video_clean.py lines 16-77)

The OpenCV primitives the function composes are parameters, bundled in
`SimPrims`.  The sub-metric values that are symmetric by their mathematical
definition (histogram correlation, mean absolute difference, edge-map
difference, cross-checked feature-match ratio) are constrained by symmetry
hypotheses where a theorem needs them; the template-matching maximum
(`np.max(cv2.matchTemplate(img, templ, TM_CCOEFF_NORMED))`) slides the
shrunk second patch inside the first and obeys no symmetry law. -/

structure SimPrims (Img : Type) where
  /-- `cv2.cvtColor(cv2.resize(face, (150, 150)), COLOR_BGR2GRAY)` (lines 20-26) -/
  grayResize : Img → Img
  /-- `cv2.resize(gray2, None, fx=scale, fy=scale)` (line 31) -/
  scaleBy : ℚ → Img → Img
  /-- `.shape` of a grayscale image (rows, columns) -/
  shapeOf : Img → Nat × Nat
  /-- `np.max(cv2.matchTemplate(img, templ, TM_CCOEFF_NORMED))` (lines 33-34) -/
  mtMax : Img → Img → ℚ
  /-- `cv2.compareHist(hist g1, hist g2, HISTCMP_CORREL)` (lines 38-40) -/
  histSim : Img → Img → ℚ
  /-- `np.mean(cv2.absdiff(g1, g2))` (line 43) -/
  meanAbsDiff : Img → Img → ℚ
  /-- `np.sum(cv2.absdiff(Canny g1, Canny g2))` (lines 47-49) -/
  edgeAbsDiffSum : Img → Img → ℚ
  /-- the ORB feature-match ratio of lines 51-64 (`len(matches) / max(len(kp1), len(kp2))`, or 0) -/
  featSim : Img → Img → ℚ

/-- One iteration of the scale loop (lines 30-35): the scaled second image is
matched inside the first only when its shape fits, and the running maximum
(initial `0`) is updated. -/
def templateLoopStep {Img : Type} (P : SimPrims Img) (g1 g2 : Img) (acc : ℚ) (s : ℚ) : ℚ :=
  let scaled := P.scaleBy s g2
  if (P.shapeOf scaled).1 ≤ (P.shapeOf g1).1 ∧ (P.shapeOf scaled).2 ≤ (P.shapeOf g1).2 then
    max acc (P.mtMax g1 scaled)
  else acc

/-- Lines 29-35: `max_similarity` after the loop over
`scale in [0.8, 0.9, 1.0, 1.1, 1.2]`. -/
def templateMax {Img : Type} (P : SimPrims Img) (g1 g2 : Img) : ℚ :=
  [(8:ℚ)/10, 9/10, 1, 11/10, 12/10].foldl (templateLoopStep P g1 g2) 0

/-- `calculate_face_similarity` (lines 16-77), happy path of the
`try`/`except`: the weighted combination of the five sub-metrics
(weights of lines 67-73). -/
def calculate_face_similarity {Img : Type} (P : SimPrims Img) (face1 face2 : Img) : ℚ :=
  let g1 := P.grayResize face1
  let g2 := P.grayResize face2
  templateMax P g1 g2 * (35/100) +
  P.histSim g1 g2 * (25/100) +
  (1 - P.meanAbsDiff g1 g2 / 255) * (20/100) +
  (1 - P.edgeAbsDiffSum g1 g2 /
      (((P.shapeOf g1).1 : ℚ) * ((P.shapeOf g1).2 : ℚ) * 255)) * (15/100) +
  P.featSim g1 g2 * (5/100)

/-- A fully symmetric instantiation of the primitives. -/
def symPrims : SimPrims Nat :=
  { grayResize := fun a => a
    scaleBy := fun _ g => g
    shapeOf := fun _ => (150, 150)
    mtMax := fun _ _ => 1/2
    histSim := fun _ _ => 1/3
    meanAbsDiff := fun _ _ => 10
    edgeAbsDiffSum := fun _ _ => 20
    featSim := fun _ _ => 1/4 }

/-- An instantiation for the C3 counterexample.  An image is a pair
(patch id, scale tag): `grayResize` tags scale 1, `scaleBy s` retags with
`s`, and a scaled image fits inside a 150-by-150 one exactly when its scale
is at most 1 (`cv2.resize` of a 150-by-150 image by `s > 1` exceeds 150
pixels, so the guard of line 32 skips scales 1.1 and 1.2).  The four
mathematically symmetric sub-metrics are constant (hence symmetric); the
template maximum finds a strong match only when patch 0 is searched for
patch 1's shrunk template, which no symmetry law of `matchTemplate`
forbids. -/
def asymPrims : SimPrims (ℚ × ℚ) :=
  { grayResize := fun a => (a.1, 1)
    scaleBy := fun s g => (g.1, s)
    shapeOf := fun g => if g.2 ≤ 1 then (150, 150) else (180, 180)
    mtMax := fun x y => if x.1 = 0 ∧ y.1 = 1 then 1/2 else 0
    histSim := fun _ _ => 0
    meanAbsDiff := fun _ _ => 0
    edgeAbsDiffSum := fun _ _ => 0
    featSim := fun _ _ => 0 }

/-! ## Helper lemmas -/

theorem length_modifyIdx {α : Type} (f : α → α) :
    ∀ (l : List α) (n : Nat), (modifyIdx l n f).length = l.length
  | [], _ => rfl
  | _ :: _, 0 => rfl
  | a :: l, n+1 => by simp [modifyIdx, length_modifyIdx f l n]

theorem map_modifyIdx {α β : Type} (g : α → β) (f : α → α) (hgf : ∀ a, g (f a) = g a) :
    ∀ (l : List α) (n : Nat), (modifyIdx l n f).map g = l.map g
  | [], _ => rfl
  | a :: l, 0 => by simp [modifyIdx, hgf]
  | a :: l, n+1 => by simp [modifyIdx, map_modifyIdx g f hgf l n]

theorem mem_modifyIdx {α : Type} (f : α → α) :
    ∀ (l : List α) (n : Nat) (c : α), c ∈ modifyIdx l n f → c ∈ l ∨ ∃ a ∈ l, c = f a := by
  intro l
  induction l with
  | nil => intro n c h; simp [modifyIdx] at h
  | cons a l ih =>
    intro n c h
    cases n with
    | zero =>
      simp only [modifyIdx, List.mem_cons] at h
      rcases h with h | h
      · exact Or.inr ⟨a, List.mem_cons_self a l, h⟩
      · exact Or.inl (List.mem_cons_of_mem _ h)
    | succ n =>
      simp only [modifyIdx, List.mem_cons] at h
      rcases h with h | h
      · exact Or.inl (h ▸ List.mem_cons_self a l)
      · rcases ih n c h with h' | ⟨b, hb, hc⟩
        · exact Or.inl (List.mem_cons_of_mem _ h')
        · exact Or.inr ⟨b, List.mem_cons_of_mem _ hb, hc⟩

theorem scanFaces_first_match {Obs T : Type} (sim : Obs → Obs → ℚ) (o : Obs) :
    ∀ (faces : List (Cluster Obs T)) (i : Nat) (best : ℚ) (bmi : Int),
      best ≤ 3/4 → (∃ f ∈ faces, (3/4 : ℚ) < sim o f.image) →
      scanFaces sim o faces i best bmi
        = (true, ((i + faces.findIdx fun f => decide ((3/4 : ℚ) < sim o f.image) : Nat) : Int)) := by
  intro faces
  induction faces with
  | nil => intro i best bmi _ hex; simp at hex
  | cons f rest ih =>
    intro i best bmi hbest hex
    by_cases hf : (3/4 : ℚ) < sim o f.image
    · have hb : best < sim o f.image := lt_of_le_of_lt hbest hf
      simp [scanFaces, List.findIdx_cons, hf, hb]
    · have hex' : ∃ g ∈ rest, (3/4 : ℚ) < sim o g.image := by
        rcases hex with ⟨g, hg, hgt⟩
        rcases List.mem_cons.mp hg with hgf | hg'
        · exact absurd (hgf ▸ hgt) hf
        · exact ⟨g, hg', hgt⟩
      have hbest' : (if best < sim o f.image then sim o f.image else best) ≤ 3/4 := by
        split
        · exact le_of_not_lt hf
        · exact hbest
      simp only [scanFaces, if_neg hf]
      rw [ih (i+1) _ _ hbest' hex']
      simp only [List.findIdx_cons, hf, decide_False, cond_false, Prod.mk.injEq, true_and]
      omega

theorem addTs_proj {Obs T : Type} [DecidableEq T] (t : T) (c : Cluster Obs T) :
    (addTs t c).idx = c.idx ∧ (addTs t c).image = c.image ∧ (addTs t c).quality = c.quality := by
  unfold addTs
  split <;> exact ⟨rfl, rfl, rfl⟩

/-! ## Claim C1 -/

/-- C1 (amended): when at least one existing cluster's similarity to the
accepted observation exceeds the duplicate threshold 0.75, the observation's
timestamp is added to the FIRST cluster in creation order whose similarity
exceeds the threshold (the scan breaks there; clusters after it are never
compared), not to the maximum-similarity cluster over all clusters. -/
theorem C1_first_match {Obs T : Type} [DecidableEq T] (sim : Obs → Obs → ℚ)
    (faces : List (Cluster Obs T)) (o : Obs) (t : T) (q : ℚ)
    (hex : ∃ f ∈ faces, (3/4 : ℚ) < sim o f.image) :
    processObs sim faces o t q
      = modifyIdx faces (faces.findIdx fun f => decide ((3/4 : ℚ) < sim o f.image)) (addTs t) := by
  have h := scanFaces_first_match sim o faces 0 0 (-1) (by norm_num) hex
  unfold processObs
  rw [h]
  simp

/-- Witness for C1: a store of two clusters in which the first exceeds the
threshold for the incoming observation; the theorem applies and the
timestamp lands at the scan's first match. -/
theorem C1_witness :
    (c1wFaces.any fun f => decide ((3/4 : ℚ) < c1Sim 2 f.image)) = true ∧
    processObs c1Sim c1wFaces 2 7 50
      = modifyIdx c1wFaces (c1wFaces.findIdx fun f => decide ((3/4 : ℚ) < c1Sim 2 f.image)) (addTs 7) :=
  ⟨by norm_num [c1wFaces, c1Sim], C1_first_match c1Sim c1wFaces 2 7 50
    ⟨{ idx := 1, image := 0, timestamps := [0], quality := 50 },
      by norm_num [c1wFaces], by norm_num [c1Sim]⟩⟩

/-- Counterexample to C1 as stated: observation 2 has similarity 0.8 > 0.75
to cluster 1's representative and 0.9 to cluster 2's representative, so the
maximum-similarity cluster is cluster 2; yet the code appends timestamp 2 to
cluster 1 (first match wins and the scan stops). -/
theorem C1_counterexample :
    (runClean allComplete qual50 c1Sim c1Stream).map (fun c => (c.image, c.timestamps))
      = [(0, [0, 2]), (1, [1])] ∧
    (3/4 : ℚ) < c1Sim 2 0 ∧ c1Sim 2 0 < c1Sim 2 1 :=
  ⟨by norm_num [runClean, c1Stream, stepClean, processObs, scanFaces, addTs, modifyIdx,
      allComplete, qual50, c1Sim],
   by norm_num [c1Sim], by norm_num [c1Sim]⟩

/-! ## Claim C2 -/

/-- C2 (amended): for an observation classified as a duplicate, the matched
cluster's representative image and quality score are NEVER replaced — even
when the new observation's quality is strictly greater — and no cluster's
id changes; only the timestamp list of the matched cluster may grow. -/
theorem C2_no_replacement {Obs T : Type} [DecidableEq T] (sim : Obs → Obs → ℚ)
    (faces : List (Cluster Obs T)) (o : Obs) (t : T) (q : ℚ)
    (hdup : (scanFaces sim o faces 0 0 (-1)).1 = true) :
    (processObs sim faces o t q).map (fun c => (c.idx, c.image, c.quality))
      = faces.map (fun c => (c.idx, c.image, c.quality)) ∧
    (processObs sim faces o t q).length = faces.length := by
  unfold processObs
  simp only [hdup, if_true]
  by_cases h2 : (0 : Int) ≤ (scanFaces sim o faces 0 0 (-1)).2
  · simp only [h2, if_true]
    constructor
    · exact map_modifyIdx _ _ (fun a => by unfold addTs; split <;> rfl) faces _
    · exact length_modifyIdx _ faces _
  · simp [h2]

/-- Witness for C2: a duplicate observation with strictly higher quality
(50 versus the stored 20) leaves id, image and quality untouched. -/
theorem C2_witness :
    (scanFaces c2Sim 1 c2wFaces 0 0 (-1)).1 = true ∧
    ((processObs c2Sim c2wFaces 1 1 50).map (fun c => (c.idx, c.image, c.quality))
        = c2wFaces.map (fun c => (c.idx, c.image, c.quality)) ∧
     (processObs c2Sim c2wFaces 1 1 50).length = c2wFaces.length) :=
  ⟨by norm_num [scanFaces, c2Sim, c2wFaces],
   C2_no_replacement c2Sim c2wFaces 1 1 50 (by norm_num [scanFaces, c2Sim, c2wFaces])⟩

/-- Counterexample to C2 as stated: observation 1 (quality 50) is a duplicate
of the cluster founded by observation 0 (quality 20, similarity 0.9 > 0.75);
the claim requires the representative and its score to become observation 1
and 50, but the cluster still stores image 0 with quality 20. -/
theorem C2_counterexample :
    runClean allComplete c2Qual c2Sim c2Stream
      = [{ idx := 1, image := 0, timestamps := [0, 1], quality := 20 }] ∧
    c2Qual 0 < c2Qual 1 ∧ (3/4 : ℚ) < c2Sim 1 0 :=
  ⟨by norm_num [runClean, c2Stream, stepClean, processObs, scanFaces, addTs, modifyIdx,
      allComplete, c2Qual, c2Sim],
   by norm_num [c2Qual], by norm_num [c2Sim]⟩

/-! ## Claim C4 -/

/-- C4: the emitted face list respects the configured cap for every input
stream: at most 25 clusters in the clean variant
(`detected_faces[:min(len, 25)]`) and at most 20 in the final variant
(`unique_faces[:min(len, 20)]`). -/
theorem C4_cap {Obs T FObs : Type} [DecidableEq T]
    (complete : Obs → Bool) (qual : Obs → ℚ) (sim : Obs → Obs → ℚ)
    (stream : List (Obs × T))
    (accept : FObs → Bool) (corr : FObs → FObs → ℚ)
    (pyset : List T → List T) (fstream : List (FObs × T)) :
    (finalizeClean (runClean complete qual sim stream)).faces.length ≤ 25 ∧
    (finalizeFinal pyset (runFinal accept corr fstream)).faces.length ≤ 20 := by
  constructor
  · simp only [finalizeClean, List.length_map, List.length_take]
    exact min_le_left _ _
  · simp only [finalizeFinal, List.length_map, List.enum_length, List.length_take]
    exact min_le_left _ _

/-! ## Claim C5 -/

theorem foldl_stepClean_rejected {Obs T : Type} [DecidableEq T]
    (complete : Obs → Bool) (qual : Obs → ℚ) (sim : Obs → Obs → ℚ) :
    ∀ (stream : List (Obs × T)), (∀ p ∈ stream, complete p.1 = false ∨ qual p.1 < 15) →
      ∀ faces, stream.foldl (stepClean complete qual sim) faces = faces := by
  intro stream
  induction stream with
  | nil => intro _ _; rfl
  | cons p rest ih =>
    intro h faces
    have hp := h p (List.mem_cons_self _ _)
    have hstep : stepClean complete qual sim faces p = faces := by
      unfold stepClean
      rcases hp with hc | hq
      · simp [hc]
      · by_cases hc : complete p.1 <;> simp [hc, hq]
    rw [List.foldl_cons, hstep]
    exact ih (fun q hq => h q (List.mem_cons_of_mem _ hq)) faces

/-- C5: when no observation of the stream is ever accepted (every detection
fails the completeness gate or the quality gate), the clean variant still
emits the well-formed result with `total_people = 0` and an empty face
list; the empty stream is the special case of an empty hypothesis. -/
theorem C5_empty_result {Obs T : Type} [DecidableEq T]
    (complete : Obs → Bool) (qual : Obs → ℚ) (sim : Obs → Obs → ℚ)
    (stream : List (Obs × T))
    (hrej : ∀ p ∈ stream, complete p.1 = false ∨ qual p.1 < 15) :
    finalizeClean (runClean complete qual sim stream)
      = { total_people := 0, faces := [] } := by
  unfold runClean
  rw [foldl_stepClean_rejected complete qual sim stream hrej []]
  simp [finalizeClean, List.mergeSort_nil]

/-- Witness for C5: a one-observation stream rejected by the completeness
gate produces the empty result. -/
theorem C5_witness :
    noneComplete 0 = false ∧
    finalizeClean (runClean noneComplete qual50 simZero c5Stream)
      = { total_people := 0, faces := [] } :=
  ⟨rfl, C5_empty_result noneComplete qual50 simZero c5Stream
    (fun _ _ => Or.inl rfl)⟩

/-! ## Claim C8 -/

/-- C8 (amended): in `calculate_face_quality` the SHARPNESS sub-score
carries the largest weight (0.25); the size sub-score's weight is 0.15,
strictly smaller than both the sharpness and the contrast weights. -/
theorem C8_sharpness_heaviest :
    (qualityWeights.all fun w => decide (w ≤ sharpnessWeight)) = true ∧
    sharpnessWeight = 1/4 ∧ sizeWeight = 3/20 ∧
    sizeWeight < sharpnessWeight ∧ sizeWeight < contrastWeight := by
  norm_num [qualityWeights, sharpnessWeight, contrastWeight, brightnessWeight,
    sizeWeight, aspectWeight, completenessWeight, edgeWeight]

/-- Counterexample to C8 as stated: the size weight is not the largest —
the sharpness weight (0.25) and the contrast weight (0.20) both exceed the
size weight (0.15). -/
theorem C8_counterexample :
    sharpnessWeight ∈ qualityWeights ∧ sizeWeight < sharpnessWeight ∧
    (qualityWeights.all fun w => decide (w ≤ sizeWeight)) = false := by
  refine ⟨List.mem_cons_self _ _, ?_, ?_⟩ <;>
    norm_num [qualityWeights, sharpnessWeight, contrastWeight, brightnessWeight,
      sizeWeight, aspectWeight, completenessWeight, edgeWeight]

/-! ## Claim C9 -/

/-- C9: under the guaranteed invariants of the externally computed patch
statistics (a variance and a standard deviation are nonnegative, a mean of
byte-valued pixels lies in `[0, 255]`, dimensions are nonnegative), every
sub-score of `calculate_face_quality` lies in `[0, 100]`, the seven weights
sum to exactly 1, an internal exception yields 0, and the returned total
lies in `[0, 100]`. -/
theorem C9_quality_bounds (s : PatchStats)
    (hvar : 0 ≤ s.laplacianVar) (hcon : 0 ≤ s.contrast)
    (hb0 : 0 ≤ s.brightness) (hb1 : s.brightness ≤ 255)
    (hw : 0 ≤ s.width) (hh : 0 ≤ s.height) :
    QualityBoundsSpec s := by
  have h1 : 0 ≤ sharpness_score s ∧ sharpness_score s ≤ 100 :=
    ⟨le_min (div_nonneg hvar (by norm_num)) (by norm_num), min_le_right _ _⟩
  have h2 : 0 ≤ contrast_score s ∧ contrast_score s ≤ 100 :=
    ⟨le_min (div_nonneg hcon (by norm_num)) (by norm_num), min_le_right _ _⟩
  have habs : |s.brightness - 128| ≤ 128 := by
    rw [abs_le]; constructor <;> linarith
  have h3 : 0 ≤ brightness_score s ∧ brightness_score s ≤ 100 := by
    unfold brightness_score
    constructor
    · have hle : |s.brightness - 128| ≤ 100 * (128/100 : ℚ) := by
        rw [show (100 : ℚ) * (128/100) = 128 by norm_num]; exact habs
      have := (div_le_iff₀ (by norm_num : (0:ℚ) < 128/100)).mpr hle
      linarith
    · have : 0 ≤ |s.brightness - 128| / (128/100 : ℚ) :=
        div_nonneg (abs_nonneg _) (by norm_num)
      linarith
  have h4 : 0 ≤ size_score s ∧ size_score s ≤ 100 :=
    ⟨le_min (div_nonneg (mul_nonneg hw hh) (by norm_num)) (by norm_num),
     min_le_right _ _⟩
  have h5 : 0 ≤ aspect_score s ∧ aspect_score s ≤ 100 := by
    unfold aspect_score; split <;> norm_num
  have h6 : 0 ≤ completeness_score s ∧ completeness_score s ≤ 100 := by
    unfold completeness_score; split <;> norm_num
  have h7 : 0 ≤ edge_score s ∧ edge_score s ≤ 100 := by
    unfold edge_score; split <;> norm_num
  refine ⟨h1, h2, h3, h4, h5, h6, h7, ?_, rfl, ?_, ?_⟩
  · norm_num [qualityWeights, sharpnessWeight, contrastWeight, brightnessWeight,
      sizeWeight, aspectWeight, completenessWeight, edgeWeight]
  · simp only [calculate_face_quality, sharpnessWeight, contrastWeight,
      brightnessWeight, sizeWeight, aspectWeight, completenessWeight, edgeWeight]
    have := h1.1; have := h2.1; have := h3.1; have := h4.1
    have := h5.1; have := h6.1; have := h7.1
    linarith
  · simp only [calculate_face_quality, sharpnessWeight, contrastWeight,
      brightnessWeight, sizeWeight, aspectWeight, completenessWeight, edgeWeight]
    have := h1.2; have := h2.2; have := h3.2; have := h4.2
    have := h5.2; have := h6.2; have := h7.2
    linarith

/-- Witness for C9: concrete in-range patch statistics satisfy every
hypothesis and the full bounds conjunction. -/
theorem C9_witness :
    ((0:ℚ) ≤ c9Stats.laplacianVar ∧ (0:ℚ) ≤ c9Stats.contrast ∧
     (0:ℚ) ≤ c9Stats.brightness ∧ c9Stats.brightness ≤ 255 ∧
     (0:ℚ) ≤ c9Stats.width ∧ (0:ℚ) ≤ c9Stats.height) ∧
    QualityBoundsSpec c9Stats :=
  ⟨by norm_num [c9Stats],
   C9_quality_bounds c9Stats (by norm_num [c9Stats]) (by norm_num [c9Stats])
     (by norm_num [c9Stats]) (by norm_num [c9Stats]) (by norm_num [c9Stats])
     (by norm_num [c9Stats])⟩

/-! ## Claim C10 -/

/-- C10: an observation whose quality score is below the hard-coded
threshold 15 never reaches the duplicate/new decision of the cluster
store — the store is returned unchanged, whatever the completeness gate
says. -/
theorem C10_quality_gate {Obs T : Type} [DecidableEq T]
    (complete : Obs → Bool) (qual : Obs → ℚ) (sim : Obs → Obs → ℚ)
    (faces : List (Cluster Obs T)) (o : Obs) (t : T)
    (hq : qual o < 15) :
    stepClean complete qual sim faces (o, t) = faces := by
  unfold stepClean
  by_cases hc : complete o <;> simp [hc, hq]

/-- Witness for C10: a quality-10 observation leaves a concrete two-cluster
store untouched. -/
theorem C10_witness :
    qual10 0 < 15 ∧ stepClean allComplete qual10 simZero c1wFaces (0, 9) = c1wFaces :=
  ⟨by norm_num [qual10],
   C10_quality_gate allComplete qual10 simZero c1wFaces 0 9 (by norm_num [qual10])⟩

/-! ## Claim C7 -/

theorem tsInv_tail {Obs T : Type} [LinearOrder T] {faces : List (Cluster Obs T)}
    {t : T} {ts : List T} (h : TsInv faces (t :: ts)) : TsInv faces ts :=
  fun c hc => ⟨(h c hc).1, fun u hu t' ht' => (h c hc).2 u hu t' (List.mem_cons_of_mem _ ht')⟩

theorem processObs_tsInv {Obs T : Type} [LinearOrder T] [DecidableEq T]
    (sim : Obs → Obs → ℚ) (faces : List (Cluster Obs T)) (o : Obs) (t : T) (q : ℚ)
    (ts : List T) (hts : ∀ u ∈ ts, t ≤ u)
    (hinv : TsInv faces (t :: ts)) :
    TsInv (processObs sim faces o t q) ts := by
  intro c hc
  unfold processObs at hc
  by_cases hdup : (scanFaces sim o faces 0 0 (-1)).1 = true
  · simp only [hdup, if_true] at hc
    by_cases h2 : (0:Int) ≤ (scanFaces sim o faces 0 0 (-1)).2
    · simp only [h2, if_true] at hc
      rcases mem_modifyIdx _ _ _ _ hc with h | ⟨a, ha, hca⟩
      · exact (tsInv_tail hinv) c h
      · obtain ⟨hs, hb⟩ := hinv a ha
        subst hca
        by_cases hin : t ∈ a.timestamps
        · simp only [addTs, hin, if_true]
          exact ⟨hs, fun u hu t' ht' => hb u hu t' (List.mem_cons_of_mem _ ht')⟩
        · simp only [addTs, hin, if_false]
          constructor
          · rw [List.pairwise_append]
            refine ⟨hs, List.pairwise_singleton _ _, ?_⟩
            intro u hu b hb'
            rw [List.mem_singleton.mp hb']
            have hle := hb u hu t (List.mem_cons_self _ _)
            rcases lt_or_eq_of_le hle with hlt | heq
            · exact hlt
            · exact absurd (heq ▸ hu) hin
          · intro u hu t' ht'
            rcases List.mem_append.mp hu with hu' | hu'
            · exact hb u hu' t' (List.mem_cons_of_mem _ ht')
            · rcases List.mem_singleton.mp hu' with rfl
              exact hts t' ht'
    · simp only [h2, if_false] at hc
      exact (tsInv_tail hinv) c hc
  · simp only [hdup, if_false] at hc
    rcases List.mem_append.mp hc with h | h
    · exact (tsInv_tail hinv) c h
    · rcases List.mem_singleton.mp h with rfl
      refine ⟨List.pairwise_singleton _ _, ?_⟩
      intro u hu t' ht'
      rcases List.mem_singleton.mp hu with rfl
      exact hts t' ht'

theorem stepClean_tsInv {Obs T : Type} [LinearOrder T] [DecidableEq T]
    (complete : Obs → Bool) (qual : Obs → ℚ) (sim : Obs → Obs → ℚ)
    (faces : List (Cluster Obs T)) (o : Obs) (t : T) (ts : List T)
    (hts : ∀ u ∈ ts, t ≤ u)
    (hinv : TsInv faces (t :: ts)) :
    TsInv (stepClean complete qual sim faces (o, t)) ts := by
  unfold stepClean
  by_cases hcomp : complete o
  · by_cases hq : qual o < 15
    · simp only [hcomp, hq, if_true]
      exact tsInv_tail hinv
    · simp only [hcomp, hq, if_true, if_false]
      exact processObs_tsInv sim faces o t (qual o) ts hts hinv
  · simp only [hcomp, if_false]
    exact tsInv_tail hinv

theorem foldl_stepClean_tsInv {Obs T : Type} [LinearOrder T] [DecidableEq T]
    (complete : Obs → Bool) (qual : Obs → ℚ) (sim : Obs → Obs → ℚ) :
    ∀ (stream : List (Obs × T)) (faces : List (Cluster Obs T)),
      List.Pairwise (· ≤ ·) (stream.map Prod.snd) →
      TsInv faces (stream.map Prod.snd) →
      TsInv (stream.foldl (stepClean complete qual sim) faces) [] := by
  intro stream
  induction stream with
  | nil => intro faces _ hinv; exact hinv
  | cons p rest ih =>
    intro faces hmono hinv
    rw [List.map_cons] at hmono hinv
    obtain ⟨hts, hmono'⟩ := List.pairwise_cons.mp hmono
    rw [List.foldl_cons]
    exact ih (stepClean complete qual sim faces p) hmono'
      (stepClean_tsInv complete qual sim faces p.1 p.2 (rest.map Prod.snd) hts hinv)

/-- C7 (amended): in the clean variant, every emitted cluster's timestamp
list is strictly increasing in time order (hence deduplicated and sorted
ascending), provided the observation stream arrives in non-decreasing
timestamp order; in the final variant the emitted timestamp list is
deduplicated (`list(set(...))` yields distinct elements) but its order is
the hash-table iteration order `pyset`, which is NOT sorted in general. -/
theorem C7_timestamps {Obs T FObs : Type} [LinearOrder T] [DecidableEq T]
    (complete : Obs → Bool) (qual : Obs → ℚ) (sim : Obs → Obs → ℚ)
    (stream : List (Obs × T))
    (accept : FObs → Bool) (corr : FObs → FObs → ℚ)
    (fstream : List (FObs × T)) (pyset : List T → List T)
    (hmono : List.Pairwise (· ≤ ·) (stream.map Prod.snd))
    (hset : ∀ l : List T, (pyset l).Nodup) :
    (∀ e ∈ (finalizeClean (runClean complete qual sim stream)).faces,
        List.Pairwise (· < ·) e.timestamps) ∧
    (∀ e ∈ (finalizeFinal pyset (runFinal accept corr fstream)).faces,
        e.timestamps.Nodup) := by
  constructor
  · intro e he
    have hinv : TsInv (runClean complete qual sim stream) [] := by
      apply foldl_stepClean_tsInv complete qual sim stream [] hmono
      intro c hc
      simp at hc
    simp only [finalizeClean, List.mem_map] at he
    obtain ⟨c, hc, he'⟩ := he
    have hc1 : c ∈ (runClean complete qual sim stream).mergeSort cleanLe :=
      List.take_subset _ _ hc
    have hc2 : c ∈ runClean complete qual sim stream :=
      (List.mergeSort_perm _ cleanLe).mem_iff.mp hc1
    have := (hinv c hc2).1
    rw [← he']
    exact this
  · intro e he
    simp only [finalizeFinal, List.mem_map] at he
    obtain ⟨p, _, he'⟩ := he
    rw [← he']
    exact hset _

/-- Witness for C7: a non-decreasing two-observation stream and the
duplicate-free set order `List.dedup`; the theorem yields sortedness of an
emitted cluster's timestamp list. -/
theorem C7_witness :
    List.Pairwise (fun a b : Nat => a ≤ b) (c7wStream.map Prod.snd) ∧
    List.Pairwise (fun a b : Nat => a < b) ([1] : List Nat) := by
  have hmono : List.Pairwise (fun a b : Nat => a ≤ b) (c7wStream.map Prod.snd) := by
    norm_num [c7wStream]
  refine ⟨hmono, ?_⟩
  have h := (C7_timestamps allComplete qual50 simZero c7wStream acceptAll corrOne
    c7Stream List.dedup hmono (fun l => List.nodup_dedup l)).1
  have hrun : runClean allComplete qual50 simZero c7wStream
      = [{ idx := 1, image := 0, timestamps := [1], quality := 50 },
         { idx := 2, image := 1, timestamps := [2], quality := 50 }] := by
    norm_num [runClean, c7wStream, stepClean, processObs, scanFaces, addTs, modifyIdx,
      allComplete, qual50, simZero]
  apply h { image := 1, timestamps := [1] }
  simp only [finalizeClean, hrun]
  have hlen : (([{ idx := 1, image := 0, timestamps := [1], quality := 50 },
      { idx := 2, image := 1, timestamps := [2], quality := 50 }] :
      List (Cluster Nat Nat)).mergeSort cleanLe).length ≤ 25 := by
    rw [List.length_mergeSort]; norm_num
  rw [List.take_of_length_le hlen]
  apply List.mem_map.mpr
  refine ⟨{ idx := 1, image := 0, timestamps := [1], quality := 50 }, ?_, rfl⟩
  exact (List.mergeSort_perm _ cleanLe).mem_iff.mpr (List.mem_cons_self _ _)

/-- Counterexample to C7 as stated: two observations of the same person at
seconds 1 and 2; under the admissible (duplicate-free, same-member) set
iteration order `pysetRev`, the final variant emits the timestamp list
`[2, 1]`, which is deduplicated but not sorted ascending. -/
theorem C7_counterexample :
    pysetRev [1, 2] = [2, 1] ∧ (pysetRev [1, 2]).Nodup ∧
    (finalizeFinal pysetRev (runFinal acceptAll corrOne c7Stream)).faces.map
        Emitted.timestamps = [[2, 1]] ∧
    ¬ List.Pairwise (fun a b : Nat => a < b) [2, 1] := by
  refine ⟨by decide, by decide, ?_, by decide⟩
  have hrun : runFinal acceptAll corrOne c7Stream
      = [{ image := 5, id := 0, tss := [1, 2] }] := by
    norm_num [runFinal, c7Stream, stepFinal, findMatch, are_faces_similar, corrOne,
      acceptAll, modifyIdx]
  rw [hrun]
  simp [finalizeFinal, pysetRev]

/-! ## Claim C6 -/

theorem cleanLe_trans {Obs T : Type} : ∀ (a b c : Cluster Obs T),
    cleanLe a b = true → cleanLe b c = true → cleanLe a c = true := by
  intro a b c hab hbc
  simp only [cleanLe, decide_eq_true_eq] at *
  exact le_trans hbc hab

theorem cleanLe_total {Obs T : Type} : ∀ (a b : Cluster Obs T),
    (cleanLe a b || cleanLe b a) = true := by
  intro a b
  simp only [cleanLe, Bool.or_eq_true, decide_eq_true_eq]
  exact le_total b.quality a.quality

theorem getElem_pair_sublist {α : Type} {l : List α} {i j : Nat}
    (hi : i < l.length) (hj : j < l.length) (hij : i < j) :
    List.Sublist [l[i], l[j]] l := by
  have h := @List.map_getElem_sublist α l [⟨i, hi⟩, ⟨j, hj⟩] (by simp [hij])
  simpa using h

theorem sublist_pair_antisymm {α : Type} :
    ∀ {l : List α} {a b : α}, l.Nodup → a ≠ b →
      List.Sublist [a, b] l → List.Sublist [b, a] l → False := by
  intro l
  induction l with
  | nil =>
    intro a b _ _ h1 _
    exact absurd (List.Sublist.mem (List.mem_cons_self _ _) h1) (List.not_mem_nil a)
  | cons c l ih =>
    intro a b hnd hab h1 h2
    obtain ⟨hcl, hnd'⟩ := List.nodup_cons.mp hnd
    cases h1 with
    | cons _ h1' =>
      cases h2 with
      | cons _ h2' => exact ih hnd' hab h1' h2'
      | cons₂ _ h2' => exact hcl (List.Sublist.mem (by simp) h1')
    | cons₂ _ h1' =>
      cases h2 with
      | cons _ h2' => exact hcl (List.Sublist.mem (by simp) h2')
      | cons₂ _ h2' => exact hab rfl

theorem idx_inj_of_pairwise {Obs T : Type} {faces : List (Cluster Obs T)}
    (hids : List.Pairwise (fun a b : Cluster Obs T => a.idx < b.idx) faces)
    {x y : Cluster Obs T} (hx : x ∈ faces) (hy : y ∈ faces) (he : x.idx = y.idx) :
    x = y := by
  obtain ⟨p, hp, hxp⟩ := List.getElem_of_mem hx
  obtain ⟨q, hq, hyq⟩ := List.getElem_of_mem hy
  rcases lt_trichotomy p q with h | h | h
  · have h2 := List.pairwise_iff_getElem.mp hids p q hp hq h
    rw [hxp, hyq] at h2
    exact absurd he (ne_of_lt h2)
  · subst h
    rw [← hxp, ← hyq]
  · have h2 := List.pairwise_iff_getElem.mp hids q p hq hp h
    rw [hxp, hyq] at h2
    exact absurd he.symm (ne_of_lt h2)

theorem pair_sublist_of_idx_lt {Obs T : Type} {faces : List (Cluster Obs T)}
    (hids : List.Pairwise (fun a b : Cluster Obs T => a.idx < b.idx) faces)
    {x y : Cluster Obs T} (hx : x ∈ faces) (hy : y ∈ faces) (hxy : x.idx < y.idx) :
    List.Sublist [x, y] faces := by
  obtain ⟨p, hp, hxp⟩ := List.getElem_of_mem hx
  obtain ⟨q, hq, hyq⟩ := List.getElem_of_mem hy
  have hpq : p < q := by
    rcases lt_trichotomy p q with h | h | h
    · exact h
    · exfalso
      subst h
      rw [← hxp, ← hyq] at hxy
      exact lt_irrefl _ hxy
    · exfalso
      have h2 := List.pairwise_iff_getElem.mp hids q p hq hp h
      rw [hxp, hyq] at h2
      exact lt_asymm hxy h2
  have h := getElem_pair_sublist hp hq hpq
  rw [hxp, hyq] at h
  exact h

theorem pairwise_lex_mergeSort {Obs T : Type} (faces : List (Cluster Obs T))
    (hids : List.Pairwise (fun a b : Cluster Obs T => a.idx < b.idx) faces) :
    List.Pairwise clusterLex (faces.mergeSort cleanLe) := by
  have hnodup : faces.Nodup :=
    hids.imp (fun h he => absurd (he ▸ h) (lt_irrefl _))
  have hperm := List.mergeSort_perm faces cleanLe
  have hnodup' : (faces.mergeSort cleanLe).Nodup := hperm.symm.nodup hnodup
  have hsorted := List.sorted_mergeSort cleanLe_trans cleanLe_total faces
  rw [List.pairwise_iff_getElem]
  intro i j hi hj hij
  have hq : (faces.mergeSort cleanLe)[j].quality ≤ (faces.mergeSort cleanLe)[i].quality := by
    have h := List.pairwise_iff_getElem.mp hsorted i j hi hj hij
    simpa [cleanLe] using h
  rcases eq_or_lt_of_le hq with heq | hlt
  · refine Or.inr ⟨heq.symm, ?_⟩
    by_contra hnot
    have hne : (faces.mergeSort cleanLe)[i] ≠ (faces.mergeSort cleanLe)[j] := by
      intro he
      exact absurd ((List.Nodup.getElem_inj_iff hnodup').mp he) (Nat.ne_of_lt hij)
    have hxmem : (faces.mergeSort cleanLe)[i] ∈ faces :=
      hperm.mem_iff.mp (List.getElem_mem hi)
    have hymem : (faces.mergeSort cleanLe)[j] ∈ faces :=
      hperm.mem_iff.mp (List.getElem_mem hj)
    have hidx_lt : (faces.mergeSort cleanLe)[j].idx < (faces.mergeSort cleanLe)[i].idx := by
      rcases lt_trichotomy ((faces.mergeSort cleanLe)[j].idx)
          ((faces.mergeSort cleanLe)[i].idx) with h | h | h
      · exact h
      · exact absurd (idx_inj_of_pairwise hids hymem hxmem h) (Ne.symm hne)
      · exact absurd h hnot
    have hsub1 : List.Sublist
        [(faces.mergeSort cleanLe)[j], (faces.mergeSort cleanLe)[i]] faces :=
      pair_sublist_of_idx_lt hids hymem hxmem hidx_lt
    have hpair : List.Pairwise (fun a b => cleanLe a b = true)
        [(faces.mergeSort cleanLe)[j], (faces.mergeSort cleanLe)[i]] := by
      simp [List.pairwise_cons, cleanLe, heq]
    have hsub2 := List.sublist_mergeSort cleanLe_trans cleanLe_total hpair hsub1
    have hsub3 : List.Sublist
        [(faces.mergeSort cleanLe)[i], (faces.mergeSort cleanLe)[j]]
        (faces.mergeSort cleanLe) :=
      getElem_pair_sublist hi hj hij
    exact sublist_pair_antisymm hnodup' hne hsub3 hsub2
  · exact Or.inl hlt

theorem processObs_cleanInv {Obs T : Type} [DecidableEq T] (sim : Obs → Obs → ℚ)
    (faces : List (Cluster Obs T)) (o : Obs) (t : T) (q : ℚ)
    (hinv : CleanInv faces) : CleanInv (processObs sim faces o t q) := by
  obtain ⟨hpw, hbd⟩ := hinv
  unfold processObs
  by_cases hdup : (scanFaces sim o faces 0 0 (-1)).1 = true
  · rw [if_pos hdup]
    by_cases h2 : (0:Int) ≤ (scanFaces sim o faces 0 0 (-1)).2
    · rw [if_pos h2]
      have hmap : (modifyIdx faces (scanFaces sim o faces 0 0 (-1)).2.toNat (addTs t)).map
          (fun c => c.idx) = faces.map (fun c => c.idx) :=
        map_modifyIdx _ _ (fun a => (addTs_proj t a).1) faces _
      constructor
      · have h1 : List.Pairwise (fun a b : Nat => a < b)
            (faces.map (fun c => c.idx)) := List.pairwise_map.mpr hpw
        rw [← hmap] at h1
        exact List.pairwise_map.mp h1
      · intro c hc
        rw [length_modifyIdx]
        rcases mem_modifyIdx _ _ _ _ hc with h | ⟨a, ha, hca⟩
        · exact hbd c h
        · rw [hca, (addTs_proj t a).1]
          exact hbd a ha
    · rw [if_neg h2]
      exact ⟨hpw, hbd⟩
  · rw [if_neg hdup]
    constructor
    · rw [List.pairwise_append]
      refine ⟨hpw, List.pairwise_singleton _ _, ?_⟩
      intro a ha b hb
      rw [List.mem_singleton.mp hb]
      exact lt_of_le_of_lt (hbd a ha) (Nat.lt_succ_self _)
    · intro c hc
      rw [List.length_append]
      rcases List.mem_append.mp hc with h | h
      · have := hbd c h
        simp only [List.length_singleton]
        omega
      · rw [List.mem_singleton.mp h]
        simp

theorem stepClean_cleanInv {Obs T : Type} [DecidableEq T]
    (complete : Obs → Bool) (qual : Obs → ℚ) (sim : Obs → Obs → ℚ)
    (faces : List (Cluster Obs T)) (p : Obs × T)
    (hinv : CleanInv faces) : CleanInv (stepClean complete qual sim faces p) := by
  unfold stepClean
  by_cases hcomp : complete p.1
  · by_cases hq : qual p.1 < 15
    · simp only [hcomp, hq, if_true]
      exact hinv
    · simp only [hcomp, hq, if_true, if_false]
      exact processObs_cleanInv sim faces p.1 p.2 (qual p.1) hinv
  · simp only [hcomp, if_false]
    exact hinv

theorem runClean_cleanInv {Obs T : Type} [DecidableEq T]
    (complete : Obs → Bool) (qual : Obs → ℚ) (sim : Obs → Obs → ℚ)
    (stream : List (Obs × T)) :
    CleanInv (runClean complete qual sim stream) := by
  unfold runClean
  suffices h : ∀ (s : List (Obs × T)) (faces : List (Cluster Obs T)),
      CleanInv faces → CleanInv (s.foldl (stepClean complete qual sim) faces) by
    refine h stream [] ⟨List.Pairwise.nil, ?_⟩
    intro c hc
    simp at hc
  intro s
  induction s with
  | nil => intro faces h; exact h
  | cons p rest ih =>
    intro faces h
    rw [List.foldl_cons]
    exact ih _ (stepClean_cleanInv complete qual sim faces p h)

/-- C6 (amended): the clean variant emits the cluster list sorted by
representative quality descending with ties broken by ascending creation
index (the stable sort of line 367), and every retained cluster dominates
every cluster dropped by the 25-cap in that order, so the retained clusters
are the top of the quality ranking; the final variant performs NO
quality-based sorting — it emits the first 20 clusters in creation order. -/
theorem C6_ranking {Obs T FObs : Type} [DecidableEq T]
    (complete : Obs → Bool) (qual : Obs → ℚ) (sim : Obs → Obs → ℚ)
    (stream : List (Obs × T))
    (accept : FObs → Bool) (corr : FObs → FObs → ℚ)
    (pyset : List T → List T) (fstream : List (FObs × T)) :
    List.Pairwise clusterLex ((runClean complete qual sim stream).mergeSort cleanLe) ∧
    (finalizeClean (runClean complete qual sim stream)).faces
      = (((runClean complete qual sim stream).mergeSort cleanLe).take 25).map
          (fun f => { image := f.idx, timestamps := f.timestamps }) ∧
    (∀ x ∈ ((runClean complete qual sim stream).mergeSort cleanLe).take 25,
      ∀ y ∈ ((runClean complete qual sim stream).mergeSort cleanLe).drop 25,
        clusterLex x y) ∧
    (finalizeFinal pyset (runFinal accept corr fstream)).faces
      = ((runFinal accept corr fstream).take 20).enum.map
          (fun p => { image := p.1 + 1, timestamps := pyset p.2.tss }) := by
  have hlex := pairwise_lex_mergeSort _ (runClean_cleanInv complete qual sim stream).1
  refine ⟨hlex, rfl, ?_, rfl⟩
  have h := hlex
  rw [← List.take_append_drop 25 ((runClean complete qual sim stream).mergeSort cleanLe)]
    at h
  exact (List.pairwise_append.mp h).2.2

/-- Counterexample to C6 as stated: two dissimilar observations where the
second person's representative has the higher quality; the final variant
emits the clusters in creation order `[person 1, person 2]`, which is not
sorted by representative quality descending. -/
theorem C6_counterexample :
    (finalizeFinal (fun l => l) (runFinal acceptAll simZero c6Stream)).faces.map
        Emitted.image = [1, 2] ∧
    (runFinal acceptAll simZero c6Stream).map (fun f => c6Qual f.image) = [10, 20] ∧
    c6Qual 0 < c6Qual 1 ∧
    ¬ List.Pairwise (fun a b : FCluster Nat Nat => c6Qual b.image ≤ c6Qual a.image)
        (runFinal acceptAll simZero c6Stream) := by
  have hrun : runFinal acceptAll simZero c6Stream
      = [{ image := 0, id := 0, tss := [0] }, { image := 1, id := 1, tss := [1] }] := by
    norm_num [runFinal, c6Stream, stepFinal, findMatch, are_faces_similar, acceptAll,
      simZero]
  refine ⟨?_, ?_, ?_, ?_⟩
  · rw [hrun]; rfl
  · rw [hrun]; norm_num [c6Qual]
  · norm_num [c6Qual]
  · rw [hrun]
    intro h
    have h2 := (List.pairwise_cons.mp h).1 { image := 1, id := 1, tss := [1] }
      (List.mem_cons_self _ _)
    norm_num [c6Qual] at h2

/-! ## Claim C3 -/

/-- C3 (amended): `calculate_face_similarity` is symmetric in its histogram,
pixel-difference, edge and feature terms (those sub-metrics are
mathematically symmetric), and the whole score is symmetric IF the
multi-scale template-matching maximum is; that term, however, searches the
shrunk second patch inside the first (`cv2.matchTemplate(gray1,
scaled_gray2)`) and obeys no symmetry law, so symmetry of the total is
conditional, not unconditional. -/
theorem C3_conditional_symmetry {Img : Type} (P : SimPrims Img)
    (hhist : ∀ a b, P.histSim a b = P.histSim b a)
    (hdiff : ∀ a b, P.meanAbsDiff a b = P.meanAbsDiff b a)
    (hedge : ∀ a b, P.edgeAbsDiffSum a b = P.edgeAbsDiffSum b a)
    (hfeat : ∀ a b, P.featSim a b = P.featSim b a)
    (hshape : ∀ a, P.shapeOf (P.grayResize a) = (150, 150))
    (htm : ∀ a b, templateMax P (P.grayResize a) (P.grayResize b)
        = templateMax P (P.grayResize b) (P.grayResize a)) :
    ∀ a b, calculate_face_similarity P a b = calculate_face_similarity P b a := by
  intro a b
  simp only [calculate_face_similarity]
  rw [htm a b, hhist (P.grayResize a) (P.grayResize b),
    hdiff (P.grayResize a) (P.grayResize b),
    hedge (P.grayResize a) (P.grayResize b),
    hfeat (P.grayResize a) (P.grayResize b),
    hshape a, hshape b]

/-- Witness for C3: under fully symmetric primitives the theorem applies
and yields symmetry at a concrete pair of patches. -/
theorem C3_witness :
    calculate_face_similarity symPrims 0 1 = calculate_face_similarity symPrims 1 0 :=
  C3_conditional_symmetry symPrims (fun _ _ => rfl) (fun _ _ => rfl) (fun _ _ => rfl)
    (fun _ _ => rfl) (fun _ => rfl)
    (fun _ _ => by norm_num [templateMax, templateLoopStep, symPrims, max_def]) 0 1

/-- Counterexample to C3 as stated: an admissible behavior of the
primitives — the four mathematically symmetric sub-metrics ARE symmetric
here, and the template maximum merely takes different values on the two
different argument pairs it is given — makes the combined similarity score
asymmetric at a concrete pair of patches. -/
theorem C3_counterexample :
    asymPrims.histSim ((0:ℚ), (0:ℚ)) (1, 0) = asymPrims.histSim (1, 0) (0, 0) ∧
    asymPrims.meanAbsDiff ((0:ℚ), (0:ℚ)) (1, 0) = asymPrims.meanAbsDiff (1, 0) (0, 0) ∧
    asymPrims.edgeAbsDiffSum ((0:ℚ), (0:ℚ)) (1, 0) = asymPrims.edgeAbsDiffSum (1, 0) (0, 0) ∧
    asymPrims.featSim ((0:ℚ), (0:ℚ)) (1, 0) = asymPrims.featSim (1, 0) (0, 0) ∧
    calculate_face_similarity asymPrims ((0:ℚ), (0:ℚ)) (1, 0)
      ≠ calculate_face_similarity asymPrims (1, 0) (0, 0) := by
  refine ⟨rfl, rfl, rfl, rfl, ?_⟩
  norm_num [calculate_face_similarity, templateMax, templateLoopStep, asymPrims, max_def]
